import Mathlib

/-
Formal model of the LLM_Server YouTube question-answering pipeline.

The development shallowly embeds the two JavaScript source files:
* `server.js` — the Express HTTP shell: request-body validation for the
  `POST /ask-youtube` route (`handleAskYoutube`).
* `youtube.js` — the core pipeline: `namespaceExists` (namespace cache in
  front of the vector store), and `askYoutube` (URL resolution, LLM init,
  cache check, transcript load, chunking, retried vector-store ingestion,
  retrieval, and prompt/chain construction).

External collaborators (Pinecone vector store, OpenAI embeddings and chat
model, the YouTube transcript loader) are modelled as oracles supplied in a
`World` record; the pipeline's observable interactions with them are
recorded in an explicit `Event` trace, and the mutable module-level state
(the in-memory namespace cache and the vector store contents) is threaded
through as an explicit `SysState`.
-/

namespace YT

/-- A single apostrophe character as a string (U+0027). -/
def sq : String := String.singleton (Char.ofNat 39)

/-- JavaScript truthiness of an optional string: `undefined`/`null` and the
empty string are falsy; every other string is truthy. -/
def jsFalsyOptStr (o : Option String) : Bool :=
  match o with
  | none => true
  | some s => s == ""

/-- JavaScript `x || d` for an optional string `x` and default `d`. -/
def jsOr (o : Option String) (d : String) : String :=
  if jsFalsyOptStr o then d else o.getD ""

/-- `!s.trim()` in JavaScript: true when the string is empty or
whitespace-only. -/
def isBlank (s : String) : Bool :=
  s.data.all (fun c => c.isWhitespace)

/-- Split a character list on a separator character.  Models the grouping
performed by `String.prototype.split` on a single-character separator. -/
def splitOnChar (sep : Char) : List Char → List (List Char)
  | [] => [[]]
  | c :: cs =>
    if c = sep then [] :: splitOnChar sep cs
    else
      match splitOnChar sep cs with
      | [] => [[c]]
      | g :: gs => (c :: g) :: gs

/-- The query portion of a URL: the characters after the first `?`, cut at
the first `#`.  Models the query-string view of `new URL(u)`. -/
def queryChars (url : List Char) : List Char :=
  match url.dropWhile (fun c => !(c == '?')) with
  | [] => []
  | _ :: rest => rest.takeWhile (fun c => !(c == '#'))

/-- Split one `name=value` query pair into name and value (value empty when
no `=` is present), as `URLSearchParams` does. -/
def paramVal (p : List Char) : List Char × List Char :=
  (p.takeWhile (fun c => !(c == '=')),
   match p.dropWhile (fun c => !(c == '=')) with
   | [] => []
   | _ :: v => v)

/-- `new URL(videoUrl).searchParams.get("v")` from `youtube.js`: the value
of the first `v` query parameter, or `none` when absent. -/
def extractVideoId (url : String) : Option String :=
  (((splitOnChar '&' (queryChars url.data)).map paramVal).find?
      (fun pr => pr.1 == ['v'])).map (fun pr => String.mk pr.2)

/-- `Array.prototype.join(sep)` over a list of strings. -/
def joinSep (sep : String) : List String → String
  | [] => ""
  | [x] => x
  | x :: y :: xs => x ++ sep ++ joinSep sep (y :: xs)

/-- Boolean test that `needle` is a prefix of `hay`. -/
def isPrefixB : List Char → List Char → Bool
  | [], _ => true
  | _ :: _, [] => false
  | a :: as, b :: bs => a == b && isPrefixB as bs

/-- Boolean test that `needle` occurs contiguously inside `hay`. -/
def containsB (needle : List Char) : List Char → Bool
  | [] => isPrefixB needle []
  | b :: bs => isPrefixB needle (b :: bs) || containsB needle bs

/-- `hay` contains `needle` as a contiguous substring. -/
def containsStr (hay needle : String) : Prop :=
  ∃ pre post, hay.data = pre ++ needle.data ++ post

theorem isPrefixB_iff (needle : List Char) :
    ∀ hay : List Char, isPrefixB needle hay = true ↔ ∃ t, hay = needle ++ t := by
  induction needle with
  | nil =>
    intro hay
    simp [isPrefixB]
  | cons a as ih =>
    intro hay
    cases hay with
    | nil =>
      simp [isPrefixB]
    | cons b bs =>
      simp only [isPrefixB, Bool.and_eq_true, beq_iff_eq, ih bs]
      constructor
      · rintro ⟨rfl, t, rfl⟩
        exact ⟨t, rfl⟩
      · rintro ⟨t, h⟩
        cases h
        exact ⟨rfl, t, rfl⟩

theorem containsB_iff (needle : List Char) :
    ∀ hay : List Char, containsB needle hay = true ↔ ∃ pre post, hay = pre ++ needle ++ post := by
  intro hay
  induction hay with
  | nil =>
    simp only [containsB, isPrefixB_iff]
    constructor
    · rintro ⟨t, h⟩
      exact ⟨[], t, by simpa using h⟩
    · rintro ⟨pre, post, h⟩
      have h' := h.symm
      rw [List.append_eq_nil] at h'
      rcases h' with ⟨h1, h2⟩
      rw [List.append_eq_nil] at h1
      exact ⟨[], by simp [h1.2]⟩
  | cons b bs ih =>
    simp only [containsB, Bool.or_eq_true, isPrefixB_iff, ih]
    constructor
    · rintro (⟨t, h⟩ | ⟨pre, post, h⟩)
      · exact ⟨[], t, by simpa using h⟩
      · exact ⟨b :: pre, post, by simp [h]⟩
    · rintro ⟨pre, post, h⟩
      cases pre with
      | nil =>
        left
        exact ⟨post, by simpa using h⟩
      | cons p ps =>
        right
        simp only [List.cons_append, List.cons.injEq] at h
        exact ⟨ps, post, h.2⟩

/-! ## Chunker

Modelled from the spec: the Chunker component is implemented by the external
`@langchain/textsplitters` package (`RecursiveCharacterTextSplitter`), whose
code is not part of this repository; `youtube.js` only configures it with
`chunkSize`, `chunkOverlap` and the separator priority list
`["\n\n", "\n", ". ", "! ", "? ", " ", ""]`.  The splitter below follows the
spec's description (§4.3, §8): split on the priority list of semantic
separators, preferring the earliest separator in priority order that keeps
chunk length ≤ chunkSize, falling back to a plain character boundary, with
adjacent chunks overlapping by `overlap` characters. -/

/-- The configured separator priority list: paragraph break, line break,
sentence-ending punctuation, space (character boundary is the fallback). -/
def seps : List (List Char) :=
  [['\n', '\n'], ['\n'], ['.', ' '], ['!', ' '], ['?', ' '], [' ']]

/-- The largest cut position `p` with `O < p ≤ C` such that the window `w`
cut at `p` ends with the separator `sep`, if any. -/
def bestEnd (C O : Nat) (w sep : List Char) : Option Nat :=
  (List.range (C + 1)).reverse.find?
    (fun p => decide (O < p) && sep.isSuffixOf (w.take p))

/-- First separator (in priority order) that yields a cut position. -/
def firstSome : List (List Char) → (List Char → Option Nat) → Option Nat
  | [], _ => none
  | s :: ss, f =>
    match f s with
    | some p => some p
    | none => firstSome ss f

/-- The cut position for the next chunk: the best position produced by the
separator priority list, or the plain character boundary `C`. -/
def chooseSplit (C O : Nat) (t : List Char) : Nat :=
  match firstSome seps (bestEnd C O (t.take C)) with
  | some p => p
  | none => C

theorem firstSome_eq_some {f : List Char → Option Nat} {p : Nat} :
    ∀ {ss : List (List Char)}, firstSome ss f = some p → ∃ s ∈ ss, f s = some p := by
  intro ss
  induction ss with
  | nil => intro h; simp [firstSome] at h
  | cons s ss ih =>
    intro h
    unfold firstSome at h
    cases hfs : f s with
    | some q =>
      rw [hfs] at h
      exact ⟨s, by simp, by rw [hfs, ← h]⟩
    | none =>
      rw [hfs] at h
      rcases ih h with ⟨s', hs', hfs'⟩
      exact ⟨s', by simp [hs'], hfs'⟩

theorem bestEnd_bounds {C O : Nat} {w sep : List Char} {p : Nat}
    (h : bestEnd C O w sep = some p) : O < p ∧ p ≤ C := by
  have hp := List.find?_some h
  have hm := List.mem_of_find?_eq_some h
  rw [List.mem_reverse, List.mem_range] at hm
  simp only [Bool.and_eq_true, decide_eq_true_eq] at hp
  exact ⟨hp.1, Nat.lt_succ_iff.mp hm⟩

theorem chooseSplit_bounds (C O : Nat) (t : List Char) (hOC : O < C) :
    O < chooseSplit C O t ∧ chooseSplit C O t ≤ C := by
  unfold chooseSplit
  cases hfs : firstSome seps (bestEnd C O (t.take C)) with
  | none => exact ⟨hOC, Nat.le_refl C⟩
  | some p =>
    rcases firstSome_eq_some hfs with ⟨s, _, hbe⟩
    exact bestEnd_bounds hbe

/-- The recursive splitter: one chunk when the text fits in `C`; otherwise
cut at `chooseSplit`, and continue `O` characters before the cut so that
adjacent chunks overlap by `O` characters. -/
def splitText (C O : Nat) (t : List Char) : List (List Char) :=
  if t.length = 0 then []
  else if t.length ≤ C then [t]
  else if hOC : O < C then
    t.take (chooseSplit C O t) :: splitText C O (t.drop (chooseSplit C O t - O))
  else [t]
termination_by t.length
decreasing_by
  have hb := chooseSplit_bounds C O t hOC
  simp only [List.length_drop]
  omega

/-- The overlap-deduplicating reconstruction of every chunk but the first:
drop the first `O` (shared) characters of each and concatenate. -/
def reconstructTail (O : Nat) (cs : List (List Char)) : List Char :=
  (cs.map (List.drop O)).flatten

/-- Reconstruction of the original text from the chunk sequence: the first
chunk in full, then every later chunk with its `O` overlap characters
removed. -/
def reconstruct (O : Nat) : List (List Char) → List Char
  | [] => []
  | c :: cs => c ++ reconstructTail O cs

/-- The overlap relation between adjacent chunks: the first `O` characters
of the second chunk are exactly the last `O` characters of the first. -/
def ovl (O : Nat) (a b : List Char) : Prop :=
  b.take O = a.drop (a.length - O)

theorem reconstructTail_nil (O : Nat) : reconstructTail O [] = [] := rfl

theorem reconstructTail_cons (O : Nat) (a : List Char) (l : List (List Char)) :
    reconstructTail O (a :: l) = a.drop O ++ reconstructTail O l := by
  simp [reconstructTail]

theorem splitText_nil (C O : Nat) {t : List Char} (h : t.length = 0) :
    splitText C O t = [] := by
  rw [splitText]
  simp [h]

theorem splitText_single (C O : Nat) {t : List Char} (h0 : ¬ t.length = 0)
    (h1 : t.length ≤ C) : splitText C O t = [t] := by
  rw [splitText]
  simp [h0, h1]

theorem splitText_cons (C O : Nat) {t : List Char} (hOC : O < C) (h1 : ¬ t.length ≤ C) :
    splitText C O t =
      t.take (chooseSplit C O t) :: splitText C O (t.drop (chooseSplit C O t - O)) := by
  have h0 : ¬ t.length = 0 := by omega
  rw [splitText]
  simp [h0, h1, hOC]

theorem splitText_length_le_aux (C O : Nat) (hOC : O < C) :
    ∀ (n : Nat) (t : List Char), t.length ≤ n → ∀ c ∈ splitText C O t, c.length ≤ C := by
  intro n
  induction n with
  | zero =>
    intro t ht c hc
    rw [splitText_nil C O (Nat.le_zero.mp ht)] at hc
    simp at hc
  | succ n ih =>
    intro t ht c hc
    by_cases h0 : t.length = 0
    · rw [splitText_nil C O h0] at hc
      simp at hc
    · by_cases h1 : t.length ≤ C
      · rw [splitText_single C O h0 h1] at hc
        rw [List.mem_singleton] at hc
        subst hc
        exact h1
      · rw [splitText_cons C O hOC h1] at hc
        have hb := chooseSplit_bounds C O t hOC
        rcases List.mem_cons.mp hc with rfl | hc'
        · rw [List.length_take]
          exact le_trans (Nat.min_le_left _ _) hb.2
        · apply ih (t.drop (chooseSplit C O t - O)) _ c hc'
          rw [List.length_drop]
          omega

theorem splitText_reconstructTail_aux (C O : Nat) (hOC : O < C) :
    ∀ (n : Nat) (t : List Char), t.length ≤ n →
      reconstructTail O (splitText C O t) = t.drop O := by
  intro n
  induction n with
  | zero =>
    intro t ht
    have h0 := Nat.le_zero.mp ht
    rw [splitText_nil C O h0, List.eq_nil_of_length_eq_zero h0]
    simp [reconstructTail]
  | succ n ih =>
    intro t ht
    by_cases h0 : t.length = 0
    · rw [splitText_nil C O h0, List.eq_nil_of_length_eq_zero h0]
      simp [reconstructTail]
    · by_cases h1 : t.length ≤ C
      · rw [splitText_single C O h0 h1]
        simp [reconstructTail]
      · rw [splitText_cons C O hOC h1]
        have hb := chooseSplit_bounds C O t hOC
        rw [reconstructTail_cons]
        rw [ih (t.drop (chooseSplit C O t - O)) (by rw [List.length_drop]; omega)]
        calc (t.take (chooseSplit C O t)).drop O ++ (t.drop (chooseSplit C O t - O)).drop O
            = (t.drop O).take (chooseSplit C O t - O) ++
              (t.drop O).drop (chooseSplit C O t - O) := by
              rw [List.drop_take, List.drop_drop, List.drop_drop, Nat.add_comm]
          _ = t.drop O := List.take_append_drop _ _

theorem splitText_head (C O : Nat) (hOC : O < C) {t : List Char} (hO : O < t.length) :
    ∃ q, O < q ∧ q ≤ t.length ∧ (splitText C O t).head? = some (t.take q) := by
  have h0 : ¬ t.length = 0 := by omega
  by_cases h1 : t.length ≤ C
  · refine ⟨t.length, hO, Nat.le_refl _, ?_⟩
    rw [splitText_single C O h0 h1]
    simp
  · have hb := chooseSplit_bounds C O t hOC
    refine ⟨chooseSplit C O t, hb.1, by omega, ?_⟩
    rw [splitText_cons C O hOC h1]
    rfl

theorem splitText_chain_aux (C O : Nat) (hOC : O < C) :
    ∀ (n : Nat) (t : List Char), t.length ≤ n → List.Chain' (ovl O) (splitText C O t) := by
  intro n
  induction n with
  | zero =>
    intro t ht
    rw [splitText_nil C O (Nat.le_zero.mp ht)]
    exact List.chain'_nil
  | succ n ih =>
    intro t ht
    by_cases h0 : t.length = 0
    · rw [splitText_nil C O h0]
      exact List.chain'_nil
    · by_cases h1 : t.length ≤ C
      · rw [splitText_single C O h0 h1]
        exact List.chain'_singleton t
      · rw [splitText_cons C O hOC h1]
        have hb := chooseSplit_bounds C O t hOC
        have hlen : (t.drop (chooseSplit C O t - O)).length =
            t.length - (chooseSplit C O t - O) := List.length_drop _ _
        have hrest : O < (t.drop (chooseSplit C O t - O)).length := by
          rw [hlen]
          omega
        rw [List.chain'_cons']
        constructor
        · intro b hbmem
          rcases splitText_head C O hOC hrest with ⟨q, hq1, _, hq3⟩
          rw [hq3] at hbmem
          simp only [Option.mem_def, Option.some.injEq] at hbmem
          subst hbmem
          unfold ovl
          have hplen : (t.take (chooseSplit C O t)).length = chooseSplit C O t := by
            rw [List.length_take]
            omega
          rw [hplen, List.take_take, Nat.min_eq_left (le_of_lt hq1), List.drop_take]
          congr 1
          omega
        · exact ih (t.drop (chooseSplit C O t - O)) (by rw [hlen]; omega)

theorem splitText_reconstruct (C O : Nat) (hOC : O < C) (t : List Char) :
    reconstruct O (splitText C O t) = t := by
  by_cases h0 : t.length = 0
  · rw [splitText_nil C O h0, List.eq_nil_of_length_eq_zero h0]
    rfl
  · by_cases h1 : t.length ≤ C
    · rw [splitText_single C O h0 h1]
      simp [reconstruct, reconstructTail]
    · rw [splitText_cons C O hOC h1]
      have hb := chooseSplit_bounds C O t hOC
      show t.take (chooseSplit C O t) ++
        reconstructTail O (splitText C O (t.drop (chooseSplit C O t - O))) = t
      rw [splitText_reconstructTail_aux C O hOC
            (t.drop (chooseSplit C O t - O)).length _ (Nat.le_refl _)]
      rw [List.drop_drop]
      have heq : (chooseSplit C O t - O) + O = chooseSplit C O t := by omega
      rw [heq]
      exact List.take_append_drop _ _

/-! ## Namespace cache and vector store state

`youtube.js` keeps a module-level `embeddingCache : Map<string, number>`
(namespace → last-confirmed timestamp) and writes documents into Pinecone
namespaces.  Both are modelled as association lists threaded through the
pipeline. -/

/-- `Map.prototype.get` on the namespace cache. -/
def cacheLookup (c : List (String × Int)) (k : String) : Option Int :=
  (c.find? (fun p => p.1 == k)).map (fun p => p.2)

/-- `Map.prototype.set` on the namespace cache. -/
def cacheSet (c : List (String × Int)) (k : String) (v : Int) : List (String × Int) :=
  (k, v) :: c.filter (fun p => !(p.1 == k))

/-- `embeddingCache.has(ns) && Date.now() - embeddingCache.get(ns) < cacheTTL`:
the cache holds a record for `ns` whose age is strictly below the TTL. -/
def cacheFresh (c : List (String × Int)) (ns : String) (now ttl : Int) : Bool :=
  match cacheLookup c ns with
  | some ts => decide (now - ts < ttl)
  | none => false

/-- The documents stored under a namespace. -/
def storeGet (store : List (String × List String)) (ns : String) : List String :=
  ((store.find? (fun p => p.1 == ns)).map (fun p => p.2)).getD []

/-- `vectorStore.addDocuments`: append documents to a namespace. -/
def storeAdd (store : List (String × List String)) (ns : String) (docs : List String) :
    List (String × List String) :=
  (ns, storeGet store ns ++ docs) :: store.filter (fun p => !(p.1 == ns))

/-- Pipeline state: the module-level namespace cache and the vector store
contents, both mutable in the source and threaded explicitly here. -/
structure SysState where
  cache : List (String × Int)
  store : List (String × List String)
deriving DecidableEq

/-- Result of `namespaceExists`: the returned boolean, the cache as left
behind, and whether `index.describeIndexStats()` was called. -/
structure NsResult where
  found : Bool
  cache : List (String × Int)
  queried : Bool
deriving DecidableEq

/-- `namespaceExists(index, namespace)` from `youtube.js`.  The whole body
runs inside `try { ... } catch { return false }`; the only throwing step is
the `describeIndexStats` store query, modelled as `stats : Except Unit
(List String)` (the list of namespaces that have entries, per the §6
collaborator contract for the statistics lookup).  A fresh cache record
short-circuits to `true` with no store query; otherwise the store is
queried, a hit refreshes the cache record with the current time, and a
store failure is caught and turned into `false`. -/
def namespaceExists (cache : List (String × Int)) (now : Int)
    (stats : Except Unit (List String)) (ns : String) (ttl : Int) : NsResult :=
  let body : Except Unit NsResult :=
    if cacheFresh cache ns now ttl then Except.ok ⟨true, cache, false⟩
    else
      match stats with
      | Except.error e => Except.error e
      | Except.ok nss =>
        if nss.contains ns then Except.ok ⟨true, cacheSet cache ns now, true⟩
        else Except.ok ⟨false, cache, true⟩
  match body with
  | Except.ok r => r
  | Except.error _ => ⟨false, cache, true⟩

/-! ## The askYoutube pipeline -/

/-- `DEFAULT_CONFIG` from `youtube.js` (the fields the model uses; the
model name, temperature and embedding model only parameterize external
collaborators and are carried by the oracles instead). -/
structure Config where
  chunkSize : Nat
  chunkOverlap : Nat
  maxRetries : Nat
  retryDelay : Nat
  topK : Nat
  cacheTTL : Int
deriving DecidableEq

def DEFAULT_CONFIG : Config :=
  ⟨1000, 150, 3, 2000, 6, 86400000⟩

/-- The per-request context object `{title, description, timestamp,
transcript}`.  The playback timestamp is a JavaScript number, modelled as a
rational. -/
structure Ctx where
  title : Option String
  description : Option String
  timestamp : Option ℚ
  transcript : Option String

/-- Observable interactions with external collaborators. -/
inductive Event where
  /-- `index.describeIndexStats()` was queried. -/
  | statsQuery
  /-- The YouTube transcript loader was invoked. -/
  | loader
  /-- The text splitter was invoked. -/
  | split
  /-- `vectorStore.addDocuments` store write, attempt number `n` (0-based). -/
  | addDocs (n : Nat)
  /-- `await setTimeout(ms)`: the indexer waited `ms` milliseconds. -/
  | wait (ms : Nat)
  /-- `retriever.invoke(query)` similarity retrieval. -/
  | retrieve
  /-- The system prompt was built and the LLM chain constructed. -/
  | buildChain
deriving DecidableEq

/-- Behaviour of the external collaborators for one request. -/
structure World where
  /-- Whether the `new ChatOpenAI(...)` constructor succeeds. -/
  llmInitOk : Bool
  /-- Documents produced by `YoutubeLoader.load()`, or a thrown error. -/
  loaderDocs : Except Unit (List String)
  /-- Outcome of the `n`-th (0-based) `addDocuments` attempt: `none` means
  success, `some e` means the write threw error message `e`. -/
  addDocsOutcome : Nat → Option String
  /-- `describeIndexStats()`: the namespaces with entries, or a thrown error. -/
  stats : Except Unit (List String)
  /-- `retriever.invoke(q)`: the retrieval results for query `q`. -/
  retrieve : String → List String

/-- The value `askYoutube` resolves to: either the literal no-information
string, or the LangChain chain built from the system prompt (returned for
the caller to stream; `askYoutube` itself never runs it). -/
inductive Answer where
  | literal (s : String)
  | chain (systemPrompt : String)
deriving DecidableEq

/-- The literal returned when retrieval produces no results. -/
def noInfoMsg : String :=
  "I couldn" ++ sq ++
    "t find any relevant information in the video to answer your question."

/-- `context.timestamp ? Math.floor(context.timestamp) + "s" : "Start"`:
a JavaScript-falsy timestamp (absent or zero) renders as `"Start"`. -/
def timestampStr (t : Option ℚ) : String :=
  match t with
  | some q => if q = 0 then "Start" else toString ⌊q⌋ ++ "s"
  | none => "Start"

def promptHeader : String :=
  "You are an expert YouTube video assistant.\n    \n    VIDEO CONTEXT:\n    Title: "

def promptDescLabel : String := "\n    Description: "

def promptTsLabel : String := "\n    Current User Timestamp: "

def promptInstr : String :=
  "\n    \n    INSTRUCTIONS:\n    1. Answer the user" ++ sq ++
  "s question based STRICTLY on the provided video context chunks.\n    2. If the answer is not in the context, say \"I cannot find the answer in this video.\"\n    3. Use a friendly, helpful tone.\n    4. If relevant, mention if the user is currently at a part of the video related to the topic (based on timestamp).\n    5. Format your answer with Markdown.\n    6. CITE YOUR SOURCES: When using information, try to estimate the timestamp if possible (e.g., [05:30]) based on the context flow, or at least quote the specific phrase.\n    \n    CONTEXT CHUNKS:\n    "

/-- `PromptContext`: the retrieved chunks, each prefixed with the context
marker, joined with blank lines in retrieval order. -/
def promptContext (results : List String) : String :=
  joinSep "\n\n" (results.map (fun d => "[Context Chunk]: " ++ d))

/-- The `systemPrompt` template literal from `youtube.js`. -/
def buildSystemPrompt (ctx : Ctx) (results : List String) : String :=
  promptHeader ++ jsOr ctx.title "Unknown" ++
  promptDescLabel ++ jsOr ctx.description "None" ++
  promptTsLabel ++ timestampStr ctx.timestamp ++
  promptInstr ++ promptContext results

/-- Steps 6–8 of `askYoutube`: retrieval, empty-result short-circuit, and
prompt/chain construction. -/
def answerPhase (w : World) (query : String) (ctx : Ctx) (s : SysState)
    (evs : List Event) : Except String Answer × SysState × List Event :=
  let results := w.retrieve query
  if results.length = 0 then
    (Except.ok (Answer.literal noInfoMsg), s, evs ++ [Event.retrieve])
  else
    (Except.ok (Answer.chain (buildSystemPrompt ctx results)), s,
     evs ++ [Event.retrieve, Event.buildChain])

/-- The retry loop of step 5 (`while (attempts < maxRetries) ...`): each
iteration attempts the store write; on success it updates the cache record
and waits `retryDelay` before breaking; on failure it increments the
attempt counter, rethrows the error once `maxRetries` attempts have failed,
and otherwise waits `retryDelay * attempts` before retrying. -/
def ingestLoop (d : Nat) (f : Nat → Option String) (docs : List String) (ns : String)
    (now : Int) (maxRetries attempts : Nat) (s : SysState) (evs : List Event) :
    Except String Unit × SysState × List Event :=
  if h : attempts < maxRetries then
    match f attempts with
    | none =>
        (Except.ok (),
         ⟨cacheSet s.cache ns now, storeAdd s.store ns docs⟩,
         evs ++ [Event.addDocs attempts, Event.wait d])
    | some e =>
        if attempts + 1 = maxRetries then
          (Except.error e, s, evs ++ [Event.addDocs attempts])
        else
          ingestLoop d f docs ns now maxRetries (attempts + 1) s
            (evs ++ [Event.addDocs attempts, Event.wait (d * (attempts + 1))])
  else (Except.ok (), s, evs)
termination_by maxRetries - attempts
decreasing_by omega

/-- Step 3 of `askYoutube`: use the caller-supplied transcript when truthy,
otherwise invoke the YouTube transcript loader (whose failure is caught and
rethrown as the transcript-unavailable error). -/
def loadDocs (w : World) (ctx : Ctx) (evs : List Event) :
    Except String (List String) × List Event :=
  if jsFalsyOptStr ctx.transcript = false then
    (Except.ok [ctx.transcript.getD ""], evs)
  else
    match w.loaderDocs with
    | Except.ok ds => (Except.ok ds, evs ++ [Event.loader])
    | Except.error _ =>
        (Except.error
           "Could not retrieve transcript. Please ensure the video has captions.",
         evs ++ [Event.loader])

/-- Steps 3–5 of `askYoutube` (the `if (!exists)` block): use the supplied
transcript or invoke the loader, reject blank transcripts, split the text,
and run the retried store write. -/
def ingestPhase (w : World) (ctx : Ctx) (cfg : Config) (ns : String) (now : Int)
    (s : SysState) (evs : List Event) : Except String Unit × SysState × List Event :=
  match loadDocs w ctx evs with
  | (Except.error e, evs1) => (Except.error e, s, evs1)
  | (Except.ok docs, evs1) =>
    if docs.length == 0 || isBlank (docs.headD "") then
      (Except.error "Transcript not found or is empty.", s, evs1)
    else
      ingestLoop cfg.retryDelay w.addDocsOutcome
        ((splitText cfg.chunkSize cfg.chunkOverlap (docs.headD "").data).map
          (fun l => String.mk l))
        ns now cfg.maxRetries 0 s (evs1 ++ [Event.split])

/-- `askYoutube(videoUrl, query, context, config)` from `youtube.js`:
resolve the video id (throwing on a falsy id), initialize the LLM (the
catch rethrows the no-fallback error), check the namespace cache, ingest
when the namespace is not present, then retrieve and compose.  Returns the
result (answer or thrown error message), the final state, and the trace of
collaborator interactions. -/
def askYoutube (w : World) (s : SysState) (now : Int) (videoUrl query : String)
    (ctx : Ctx) (cfg : Config) : Except String Answer × SysState × List Event :=
  if jsFalsyOptStr (extractVideoId videoUrl) then
    (Except.error "Invalid YouTube URL - no video ID found", s, [])
  else if w.llmInitOk = false then
    (Except.error "Primary LLM failed and no fallback configured.", s, [])
  else
    let ns := "yt-" ++ (extractVideoId videoUrl).getD ""
    let r := namespaceExists s.cache now w.stats ns cfg.cacheTTL
    let s1 : SysState := ⟨r.cache, s.store⟩
    let evs0 : List Event := if r.queried then [Event.statsQuery] else []
    if r.found then answerPhase w query ctx s1 evs0
    else
      match ingestPhase w ctx cfg ns now s1 evs0 with
      | (Except.error e, s2, evs) => (Except.error e, s2, evs)
      | (Except.ok _, s2, evs) => answerPhase w query ctx s2 evs

/-! ## HTTP shell (`server.js`) -/

/-- The JSON body of a `POST /ask-youtube` request: every field may be
absent. -/
structure ReqBody where
  videoUrl : Option String
  query : Option String
  title : Option String
  description : Option String
  timestamp : Option ℚ
  transcript : Option String

/-- Outcome of the route handler's validation step: either the 400
rejection, or the invocation of `askYoutube` with the destructured
arguments (the only branch in which the core runs). -/
inductive HandlerOutcome where
  | badRequest (status : Nat) (error : String)
  | invoked (videoUrl query : String) (ctx : Ctx)

/-- The `if (!videoUrl || !query)` guard of the `POST /ask-youtube` route:
truthiness-based rejection before `askYoutube` is invoked. -/
def handleAskYoutube (b : ReqBody) : HandlerOutcome :=
  if jsFalsyOptStr b.videoUrl || jsFalsyOptStr b.query then
    HandlerOutcome.badRequest 400 "Missing videoUrl or query"
  else
    HandlerOutcome.invoked (b.videoUrl.getD "") (b.query.getD "")
      ⟨b.title, b.description, b.timestamp, b.transcript⟩

/-! ## Trace and frame lemmas -/

theorem answerPhase_state (w : World) (query : String) (ctx : Ctx) (s : SysState)
    (evs : List Event) : (answerPhase w query ctx s evs).2.1 = s := by
  by_cases h : (w.retrieve query).length = 0 <;> simp [answerPhase, h]

theorem answerPhase_events (w : World) (query : String) (ctx : Ctx) (s : SysState)
    (evs : List Event) (e : Event)
    (he : e ∈ (answerPhase w query ctx s evs).2.2) :
    e ∈ evs ∨ e = Event.retrieve ∨ e = Event.buildChain := by
  by_cases h : (w.retrieve query).length = 0
  · simp [answerPhase, h, List.mem_append] at he
    tauto
  · simp [answerPhase, h, List.mem_append] at he
    tauto

theorem answerPhase_empty (w : World) (query : String) (ctx : Ctx) (s : SysState)
    (evs : List Event) (hret : w.retrieve query = []) :
    answerPhase w query ctx s evs =
      (Except.ok (Answer.literal noInfoMsg), s, evs ++ [Event.retrieve]) := by
  simp [answerPhase, hret]

theorem ingestLoop_events (d : Nat) (f : Nat → Option String) (docs : List String)
    (ns : String) (now : Int) :
    ∀ (fuel maxR attempts : Nat) (s : SysState) (evs : List Event) (e : Event),
      maxR - attempts ≤ fuel →
      e ∈ (ingestLoop d f docs ns now maxR attempts s evs).2.2 →
      e ∈ evs ∨ (∃ n, e = Event.addDocs n) ∨ (∃ m, e = Event.wait m) := by
  intro fuel
  induction fuel with
  | zero =>
    intro maxR attempts s evs e hf he
    rw [ingestLoop] at he
    rw [dif_neg (by omega : ¬ attempts < maxR)] at he
    exact Or.inl he
  | succ fuel ih =>
    intro maxR attempts s evs e hf he
    rw [ingestLoop] at he
    by_cases hlt : attempts < maxR
    · rw [dif_pos hlt] at he
      cases hf0 : f attempts with
      | none =>
        simp only [hf0] at he
        simp only [List.mem_append, List.mem_cons, List.mem_singleton] at he
        rcases he with h | h | h | h
        · exact Or.inl h
        · exact Or.inr (Or.inl ⟨attempts, h⟩)
        · exact Or.inr (Or.inr ⟨d, h⟩)
        · simp at h
      | some err =>
        simp only [hf0] at he
        by_cases hmax : attempts + 1 = maxR
        · rw [if_pos hmax] at he
          simp only [List.mem_append, List.mem_singleton] at he
          rcases he with h | h
          · exact Or.inl h
          · exact Or.inr (Or.inl ⟨attempts, h⟩)
        · rw [if_neg hmax] at he
          rcases ih maxR (attempts + 1) s _ e (by omega) he with h | h | h
          · simp only [List.mem_append, List.mem_cons, List.mem_singleton] at h
            rcases h with h | h | h | h
            · exact Or.inl h
            · exact Or.inr (Or.inl ⟨attempts, h⟩)
            · exact Or.inr (Or.inr ⟨d * (attempts + 1), h⟩)
            · simp at h
          · exact Or.inr (Or.inl h)
          · exact Or.inr (Or.inr h)
    · rw [dif_neg hlt] at he
      exact Or.inl he

theorem loadDocs_events (w : World) (ctx : Ctx) (evs : List Event) (e : Event)
    (he : e ∈ (loadDocs w ctx evs).2) : e ∈ evs ∨ e = Event.loader := by
  unfold loadDocs at he
  by_cases h : jsFalsyOptStr ctx.transcript = false
  · rw [if_pos h] at he
    exact Or.inl he
  · rw [if_neg h] at he
    cases hl : w.loaderDocs with
    | ok ds =>
      rw [hl] at he
      simp only [List.mem_append, List.mem_singleton] at he
      tauto
    | error u =>
      rw [hl] at he
      simp only [List.mem_append, List.mem_singleton] at he
      tauto

theorem ingestPhase_events (w : World) (ctx : Ctx) (cfg : Config) (ns : String)
    (now : Int) (s : SysState) (evs : List Event) (e : Event)
    (he : e ∈ (ingestPhase w ctx cfg ns now s evs).2.2) :
    e ∈ evs ∨ e = Event.loader ∨ e = Event.split ∨
      (∃ n, e = Event.addDocs n) ∨ (∃ m, e = Event.wait m) := by
  unfold ingestPhase at he
  rcases hld : loadDocs w ctx evs with ⟨res, evs1⟩
  rw [hld] at he
  have hevs1 : ∀ x : Event, x ∈ evs1 → x ∈ evs ∨ x = Event.loader := by
    intro x hx
    exact loadDocs_events w ctx evs x (by rw [hld]; exact hx)
  cases res with
  | error msg =>
    have he' : e ∈ evs1 := he
    rcases hevs1 e he' with h | h
    · exact Or.inl h
    · exact Or.inr (Or.inl h)
  | ok docs =>
    have he' : e ∈ (if (docs.length == 0 || isBlank (docs.headD "")) = true
        then (Except.error "Transcript not found or is empty.", s, evs1)
        else ingestLoop cfg.retryDelay w.addDocsOutcome
          ((splitText cfg.chunkSize cfg.chunkOverlap (docs.headD "").data).map
            (fun l => String.mk l))
          ns now cfg.maxRetries 0 s (evs1 ++ [Event.split])).2.2 := he
    by_cases hb : (docs.length == 0 || isBlank (docs.headD "")) = true
    · rw [if_pos hb] at he'
      rcases hevs1 e he' with h | h
      · exact Or.inl h
      · exact Or.inr (Or.inl h)
    · rw [if_neg hb] at he'
      rcases ingestLoop_events cfg.retryDelay w.addDocsOutcome _ ns now
          (cfg.maxRetries - 0) cfg.maxRetries 0 s _ e (by omega) he' with h | h | h
      · simp only [List.mem_append, List.mem_singleton] at h
        rcases h with h | h
        · rcases hevs1 e h with h' | h'
          · exact Or.inl h'
          · exact Or.inr (Or.inl h')
        · exact Or.inr (Or.inr (Or.inl h))
      · exact Or.inr (Or.inr (Or.inr (Or.inl h)))
      · exact Or.inr (Or.inr (Or.inr (Or.inr h)))

/-! ## Example inputs used by the witnesses -/

def urlEx : String := "https://www.youtube.com/watch?v=abc"

def ctxEx : Ctx := ⟨none, none, none, none⟩

def wEx : World :=
  ⟨true, Except.ok ["hello world"], fun _ => none, Except.ok [], fun _ => []⟩

/-! ## Claims -/

/-- C3: For every chunk size C and overlap O with 0 ≤ O < C, splitting any
text with the spec-modelled recursive character splitter (separator
priority: paragraph break, line break, sentence-ending punctuation, space,
character boundary as last resort) produces an ordered chunk sequence in
which every chunk has length ≤ C, each adjacent pair of chunks shares a
boundary region of length ≤ O (the first O characters of the later chunk
are exactly the last O characters of the earlier one), and the chunk
sequence, with overlaps deduplicated, reconstructs the original text. -/
theorem splitText_spec (C O : Nat) (hOC : O < C) (t : List Char) :
    (∀ c ∈ splitText C O t, c.length ≤ C) ∧
    List.Chain' (ovl O) (splitText C O t) ∧
    reconstruct O (splitText C O t) = t :=
  ⟨splitText_length_le_aux C O hOC t.length t (Nat.le_refl _),
   splitText_chain_aux C O hOC t.length t (Nat.le_refl _),
   splitText_reconstruct C O hOC t⟩

theorem splitText_spec_witness :
    2 < 5 ∧
    ((∀ c ∈ splitText 5 2 ("ab cd ef".data), c.length ≤ 5) ∧
     List.Chain' (ovl 2) (splitText 5 2 ("ab cd ef".data)) ∧
     reconstruct 2 (splitText 5 2 ("ab cd ef".data)) = "ab cd ef".data) :=
  ⟨by decide, splitText_spec 5 2 (by decide) ("ab cd ef".data)⟩

/-- C5: For every namespace with a cache record whose age is strictly less
than the TTL, `namespaceExists` returns `true` without issuing any query to
the vector store; for a namespace whose record is absent or expired, it
queries the store's namespace statistics, and if the namespace is present
it refreshes the cache record's timestamp (to the current time) and returns
`true`, else returns `false`. -/
theorem namespaceExists_spec (cache : List (String × Int)) (now : Int)
    (stats : Except Unit (List String)) (ns : String) (ttl : Int) :
    (cacheFresh cache ns now ttl = true →
      namespaceExists cache now stats ns ttl = ⟨true, cache, false⟩) ∧
    (cacheFresh cache ns now ttl = false →
      ∀ nss, stats = Except.ok nss →
        namespaceExists cache now stats ns ttl =
          if nss.contains ns then ⟨true, cacheSet cache ns now, true⟩
          else ⟨false, cache, true⟩) := by
  constructor
  · intro h
    simp [namespaceExists, h]
  · intro h nss hs
    subst hs
    by_cases hc : ns ∈ nss
    · simp [namespaceExists, h, hc]
    · simp [namespaceExists, h, hc]

theorem namespaceExists_spec_witness :
    cacheFresh [("ns", 0)] "ns" 1 100 = true ∧
    namespaceExists [("ns", 0)] 1 (Except.ok []) "ns" 100 = ⟨true, [("ns", 0)], false⟩ :=
  ⟨by decide, (namespaceExists_spec [("ns", 0)] 1 (Except.ok []) "ns" 100).1 (by decide)⟩

/-- C6: For every namespace whose cache record is absent or expired (so the
statistics query is actually issued), a throwing store query is caught and
`namespaceExists` returns `false` rather than propagating the error, so the
request proceeds as if the video were not yet indexed. -/
theorem namespaceExists_store_error (cache : List (String × Int)) (now : Int)
    (ns : String) (ttl : Int) (h : cacheFresh cache ns now ttl = false) :
    namespaceExists cache now (Except.error ()) ns ttl = ⟨false, cache, true⟩ := by
  simp [namespaceExists, h]

theorem namespaceExists_store_error_witness :
    cacheFresh [] "ns" 0 100 = false ∧
    namespaceExists [] 0 (Except.error ()) "ns" 100 = ⟨false, [], true⟩ :=
  ⟨by decide, namespaceExists_store_error [] 0 "ns" 100 (by decide)⟩

/-- C9: `namespaceExists` is total: it returns a boolean for every input and
every store behaviour (the throwing store is the `Except.error` case and is
caught by the surrounding try/catch, modelled by the final match in
`namespaceExists`); and whenever it returns `false` — namespace absent or
store failure — the cache map is left unchanged. -/
theorem namespaceExists_false_frame (cache : List (String × Int)) (now : Int)
    (stats : Except Unit (List String)) (ns : String) (ttl : Int) :
    ((namespaceExists cache now stats ns ttl).found = true ∨
     (namespaceExists cache now stats ns ttl).found = false) ∧
    ((namespaceExists cache now stats ns ttl).found = false →
      (namespaceExists cache now stats ns ttl).cache = cache) := by
  constructor
  · rcases Bool.eq_false_or_eq_true (namespaceExists cache now stats ns ttl).found with h | h
    · exact Or.inl h
    · exact Or.inr h
  intro h
  cases hf : cacheFresh cache ns now ttl with
  | true =>
    rw [(namespaceExists_spec cache now stats ns ttl).1 hf] at h
    simp at h
  | false =>
    cases stats with
    | error u =>
      rw [namespaceExists_store_error cache now ns ttl hf]
    | ok nss =>
      rw [(namespaceExists_spec cache now (Except.ok nss) ns ttl).2 hf nss rfl] at h ⊢
      by_cases hc : ns ∈ nss
      · simp [hc] at h
      · simp [hc]

theorem namespaceExists_false_frame_witness :
    (namespaceExists [] 0 (Except.ok []) "ns" 100).found = false ∧
    (namespaceExists [] 0 (Except.ok []) "ns" 100).cache = [] :=
  ⟨by decide, (namespaceExists_false_frame [] 0 (Except.ok []) "ns" 100).2 (by decide)⟩

/-- C10: The inbound request check rejects by truthiness, not by presence:
every request in which `videoUrl` or `query` is the empty string (not
merely missing) is rejected with the 400 "Missing videoUrl or query"
response; `HandlerOutcome.invoked` — the only outcome that invokes
`askYoutube` — is not produced. -/
theorem handleAskYoutube_empty_rejected (b : ReqBody)
    (h : b.videoUrl = some "" ∨ b.query = some "") :
    handleAskYoutube b = HandlerOutcome.badRequest 400 "Missing videoUrl or query" := by
  unfold handleAskYoutube
  rcases h with h | h <;> simp [h, jsFalsyOptStr]

theorem handleAskYoutube_empty_rejected_witness :
    ((⟨some "", some "x", none, none, none, none⟩ : ReqBody).videoUrl = some "" ∨
     (⟨some "", some "x", none, none, none, none⟩ : ReqBody).query = some "") ∧
    handleAskYoutube ⟨some "", some "x", none, none, none, none⟩ =
      HandlerOutcome.badRequest 400 "Missing videoUrl or query" :=
  ⟨Or.inl rfl,
   handleAskYoutube_empty_rejected ⟨some "", some "x", none, none, none, none⟩ (Or.inl rfl)⟩

/-- C7: For every `videoUrl` from which no video ID can be extracted (the
`v` query parameter is absent, or present but empty and hence falsy),
`askYoutube` throws the invalid-URL error before any collaborator is
contacted (the event trace is empty) and the state is unchanged. -/
theorem askYoutube_invalid_url (w : World) (s : SysState) (now : Int)
    (videoUrl query : String) (ctx : Ctx) (cfg : Config)
    (h : jsFalsyOptStr (extractVideoId videoUrl) = true) :
    askYoutube w s now videoUrl query ctx cfg =
      (Except.error "Invalid YouTube URL - no video ID found", s, []) := by
  simp [askYoutube, h]

theorem askYoutube_invalid_url_witness :
    jsFalsyOptStr (extractVideoId "https://www.youtube.com/watch") = true ∧
    askYoutube wEx ⟨[], []⟩ 0 "https://www.youtube.com/watch" "q" ctxEx DEFAULT_CONFIG =
      (Except.error "Invalid YouTube URL - no video ID found", ⟨[], []⟩, []) :=
  ⟨by decide,
   askYoutube_invalid_url wEx ⟨[], []⟩ 0 "https://www.youtube.com/watch" "q" ctxEx
     DEFAULT_CONFIG (by decide)⟩

/-- C2: For every ingestion of a chunk list into a namespace with the
default `maxRetries = 3`, the store write is attempted at most 3 times
total; after the n-th failed attempt (n < 3) the indexer waits
`retryDelay * n` milliseconds before retrying; if the write succeeds on
some attempt, ingestion reports success and the namespace cache record is
updated (the source additionally waits `retryDelay` once after a success);
if all 3 attempts fail, the last error propagates to the caller and
neither the cache nor the store is updated.  The four cases below
characterize the loop completely by the outcomes of the three possible
attempts. -/
theorem ingestLoop_retry_spec (d : Nat) (f : Nat → Option String) (docs : List String)
    (ns : String) (now : Int) (s : SysState) :
    (f 0 = none →
      ingestLoop d f docs ns now 3 0 s [] =
        (Except.ok (), ⟨cacheSet s.cache ns now, storeAdd s.store ns docs⟩,
         [Event.addDocs 0, Event.wait d])) ∧
    (∀ e0, f 0 = some e0 → f 1 = none →
      ingestLoop d f docs ns now 3 0 s [] =
        (Except.ok (), ⟨cacheSet s.cache ns now, storeAdd s.store ns docs⟩,
         [Event.addDocs 0, Event.wait (d * 1), Event.addDocs 1, Event.wait d])) ∧
    (∀ e0 e1, f 0 = some e0 → f 1 = some e1 → f 2 = none →
      ingestLoop d f docs ns now 3 0 s [] =
        (Except.ok (), ⟨cacheSet s.cache ns now, storeAdd s.store ns docs⟩,
         [Event.addDocs 0, Event.wait (d * 1), Event.addDocs 1, Event.wait (d * 2),
          Event.addDocs 2, Event.wait d])) ∧
    (∀ e0 e1 e2, f 0 = some e0 → f 1 = some e1 → f 2 = some e2 →
      ingestLoop d f docs ns now 3 0 s [] =
        (Except.error e2, s,
         [Event.addDocs 0, Event.wait (d * 1), Event.addDocs 1, Event.wait (d * 2),
          Event.addDocs 2])) := by
  refine ⟨?_, ?_, ?_, ?_⟩
  · intro h0
    rw [ingestLoop]
    simp [h0]
  · intro e0 h0 h1
    rw [ingestLoop]
    simp only [h0]
    rw [ingestLoop]
    simp [h0, h1]
  · intro e0 e1 h0 h1 h2
    rw [ingestLoop]
    simp only [h0]
    rw [ingestLoop]
    simp only [h1]
    rw [ingestLoop]
    simp [h0, h1, h2]
  · intro e0 e1 e2 h0 h1 h2
    rw [ingestLoop]
    simp only [h0]
    rw [ingestLoop]
    simp only [h1]
    rw [ingestLoop]
    simp [h0, h1, h2]

theorem ingestLoop_retry_spec_witness :
    ((fun n => if n == 0 then some "boom" else none) 0 = some "boom") ∧
    ingestLoop 2000 (fun n => if n == 0 then some "boom" else none) ["c"] "yt-x" 7 3 0
        ⟨[], []⟩ [] =
      (Except.ok (), ⟨cacheSet [] "yt-x" 7, storeAdd [] "yt-x" ["c"]⟩,
       [Event.addDocs 0, Event.wait (2000 * 1), Event.addDocs 1, Event.wait 2000]) :=
  ⟨rfl,
   (ingestLoop_retry_spec 2000 (fun n => if n == 0 then some "boom" else none) ["c"]
     "yt-x" 7 ⟨[], []⟩).2.1 "boom" rfl rfl⟩

/-- Members of the cache-check event prefix are statistics queries. -/
theorem statsEvs_mem (b : Bool) (x : Event)
    (hx : x ∈ (if b = true then [Event.statsQuery] else [])) : x = Event.statsQuery := by
  cases b
  · simp at hx
  · simp at hx
    exact hx

/-- C1: For every query whose similarity retrieval returns an empty result
list, `askYoutube` returns exactly the literal no-information string (the
source string "I couldn't find any relevant information in the video to
answer your question."), and the language model is never invoked: no prompt
is built and no chain is constructed (`Event.buildChain`, the only step
that builds the system prompt and the chain, never appears in the trace;
the chain is also the only value through which the model can later be
run). -/
theorem askYoutube_empty_retrieval (w : World) (s : SysState) (now : Int)
    (videoUrl query : String) (ctx : Ctx) (cfg : Config)
    (hret : w.retrieve query = []) :
    (Event.retrieve ∈ (askYoutube w s now videoUrl query ctx cfg).2.2 →
      (askYoutube w s now videoUrl query ctx cfg).1 =
        Except.ok (Answer.literal noInfoMsg)) ∧
    Event.buildChain ∉ (askYoutube w s now videoUrl query ctx cfg).2.2 := by
  unfold askYoutube
  by_cases hu : jsFalsyOptStr (extractVideoId videoUrl) = true
  · simp [hu]
  · by_cases hl : w.llmInitOk = false
    · simp [hu, hl]
    · simp only [if_neg hu, if_neg hl]
      generalize hr : namespaceExists s.cache now w.stats
        ("yt-" ++ (extractVideoId videoUrl).getD "") cfg.cacheTTL = r
      cases hf : r.found
      · simp only [hf, Bool.false_eq_true, if_false]
        rcases hip : ingestPhase w ctx cfg ("yt-" ++ (extractVideoId videoUrl).getD "")
            now ⟨r.cache, s.store⟩
            (if r.queried = true then [Event.statsQuery] else []) with ⟨res, s2, evs2⟩
        have hnr : Event.retrieve ∉ evs2 := by
          intro hx
          rcases ingestPhase_events w ctx cfg _ now _ _ Event.retrieve
              (by rw [hip]; exact hx) with h | h | h | ⟨n, h⟩ | ⟨m, h⟩
          · exact absurd (statsEvs_mem r.queried _ h) (by simp)
          all_goals simp at h
        have hnb : Event.buildChain ∉ evs2 := by
          intro hx
          rcases ingestPhase_events w ctx cfg _ now _ _ Event.buildChain
              (by rw [hip]; exact hx) with h | h | h | ⟨n, h⟩ | ⟨m, h⟩
          · exact absurd (statsEvs_mem r.queried _ h) (by simp)
          all_goals simp at h
        cases res with
        | error msg =>
          constructor
          · intro hmem
            exact absurd hmem hnr
          · intro hmem
            exact hnb hmem
        | ok u =>
          show (Event.retrieve ∈ (answerPhase w query ctx s2 evs2).2.2 →
              (answerPhase w query ctx s2 evs2).1 =
                Except.ok (Answer.literal noInfoMsg)) ∧
            Event.buildChain ∉ (answerPhase w query ctx s2 evs2).2.2
          rw [answerPhase_empty w query ctx s2 evs2 hret]
          constructor
          · intro _
            rfl
          · intro hmem
            rcases List.mem_append.mp hmem with h | h
            · exact hnb h
            · simp at h
      · simp only [hf, if_true]
        rw [answerPhase_empty w query ctx ⟨r.cache, s.store⟩
              (if r.queried = true then [Event.statsQuery] else []) hret]
        constructor
        · intro _
          rfl
        · intro hmem
          rcases List.mem_append.mp hmem with h | h
          · exact absurd (statsEvs_mem r.queried _ h) (by simp)
          · simp at h

def wEmpty : World :=
  ⟨true, Except.ok ["hello world"], fun _ => none, Except.ok [], fun _ => []⟩

theorem askYoutube_empty_retrieval_witness :
    wEmpty.retrieve "q" = [] ∧
    ((Event.retrieve ∈ (askYoutube wEmpty ⟨[], []⟩ 0 urlEx "q" ctxEx DEFAULT_CONFIG).2.2 →
       (askYoutube wEmpty ⟨[], []⟩ 0 urlEx "q" ctxEx DEFAULT_CONFIG).1 =
         Except.ok (Answer.literal noInfoMsg)) ∧
     Event.buildChain ∉ (askYoutube wEmpty ⟨[], []⟩ 0 urlEx "q" ctxEx DEFAULT_CONFIG).2.2) :=
  ⟨rfl, askYoutube_empty_retrieval wEmpty ⟨[], []⟩ 0 urlEx "q" ctxEx DEFAULT_CONFIG rfl⟩

/-- C4: For every request whose namespace existence check returns `true`,
the whole ingestion phase is skipped: the transcript loader is not invoked,
the text splitter is not invoked, no documents are written to the vector
store, and the vector store's contents (in particular for that namespace)
are unchanged by the request. -/
theorem askYoutube_cached_skips_ingestion (w : World) (s : SysState) (now : Int)
    (videoUrl query : String) (ctx : Ctx) (cfg : Config)
    (h : (namespaceExists s.cache now w.stats
            ("yt-" ++ (extractVideoId videoUrl).getD "") cfg.cacheTTL).found = true) :
    Event.loader ∉ (askYoutube w s now videoUrl query ctx cfg).2.2 ∧
    Event.split ∉ (askYoutube w s now videoUrl query ctx cfg).2.2 ∧
    (∀ n, Event.addDocs n ∉ (askYoutube w s now videoUrl query ctx cfg).2.2) ∧
    (askYoutube w s now videoUrl query ctx cfg).2.1.store = s.store := by
  unfold askYoutube
  by_cases hu : jsFalsyOptStr (extractVideoId videoUrl) = true
  · simp [hu]
  · by_cases hl : w.llmInitOk = false
    · simp [hu, hl]
    · simp only [if_neg hu, if_neg hl]
      rw [if_pos h]
      have hmem : ∀ x : Event,
          x ∈ (answerPhase w query ctx
            ⟨(namespaceExists s.cache now w.stats
                ("yt-" ++ (extractVideoId videoUrl).getD "") cfg.cacheTTL).cache, s.store⟩
            (if (namespaceExists s.cache now w.stats
                  ("yt-" ++ (extractVideoId videoUrl).getD "") cfg.cacheTTL).queried = true
              then [Event.statsQuery] else [])).2.2 →
          x = Event.statsQuery ∨ x = Event.retrieve ∨ x = Event.buildChain := by
        intro x hx
        rcases answerPhase_events w query ctx _ _ x hx with h' | h' | h'
        · exact Or.inl (statsEvs_mem _ _ h')
        · exact Or.inr (Or.inl h')
        · exact Or.inr (Or.inr h')
      refine ⟨?_, ?_, ?_, ?_⟩
      · intro hx
        rcases hmem _ hx with h' | h' | h' <;> simp at h'
      · intro hx
        rcases hmem _ hx with h' | h' | h' <;> simp at h'
      · intro n hx
        rcases hmem _ hx with h' | h' | h' <;> simp at h'
      · rw [answerPhase_state]

theorem askYoutube_cached_skips_ingestion_witness :
    (namespaceExists [("yt-abc", 0)] 5 wEx.stats
        ("yt-" ++ (extractVideoId urlEx).getD "") DEFAULT_CONFIG.cacheTTL).found = true ∧
    (Event.loader ∉ (askYoutube wEx ⟨[("yt-abc", 0)], []⟩ 5 urlEx "q" ctxEx
        DEFAULT_CONFIG).2.2 ∧
     Event.split ∉ (askYoutube wEx ⟨[("yt-abc", 0)], []⟩ 5 urlEx "q" ctxEx
        DEFAULT_CONFIG).2.2 ∧
     (∀ n, Event.addDocs n ∉ (askYoutube wEx ⟨[("yt-abc", 0)], []⟩ 5 urlEx "q" ctxEx
        DEFAULT_CONFIG).2.2) ∧
     (askYoutube wEx ⟨[("yt-abc", 0)], []⟩ 5 urlEx "q" ctxEx DEFAULT_CONFIG).2.1.store =
       (⟨[("yt-abc", 0)], []⟩ : SysState).store) :=
  ⟨by decide,
   askYoutube_cached_skips_ingestion wEx ⟨[("yt-abc", 0)], []⟩ 5 urlEx "q" ctxEx
     DEFAULT_CONFIG (by decide)⟩

/-- C8 (amended): For every non-empty retrieval result, the system
instruction built by the composer contains the video title and the
description (whenever present and non-empty; the defaults "Unknown"/"None"
otherwise take their place), the rendered playback timestamp — the
timestamp floored to whole seconds with an "s" suffix when the timestamp is
present and non-zero, and the word "Start" when the timestamp is absent
**or zero** (JavaScript truthiness renders the present-but-zero timestamp
as "Start") — and each retrieved chunk's text prefixed with the context
marker "[Context Chunk]: ", joined in retrieval order. -/
theorem buildSystemPrompt_contains (ctx : Ctx) (results : List String)
    (_hres : results ≠ []) :
    (∀ ti, ctx.title = some ti → ti ≠ "" →
      containsStr (buildSystemPrompt ctx results) ti) ∧
    (∀ de, ctx.description = some de → de ≠ "" →
      containsStr (buildSystemPrompt ctx results) de) ∧
    containsStr (buildSystemPrompt ctx results) (timestampStr ctx.timestamp) ∧
    (∀ q : ℚ, ctx.timestamp = some q → q ≠ 0 →
      timestampStr ctx.timestamp = toString ⌊q⌋ ++ "s") ∧
    ((ctx.timestamp = none ∨ ctx.timestamp = some 0) →
      timestampStr ctx.timestamp = "Start") ∧
    containsStr (buildSystemPrompt ctx results)
      (joinSep "\n\n" (results.map (fun d => "[Context Chunk]: " ++ d))) := by
  have hT : containsStr (buildSystemPrompt ctx results) (jsOr ctx.title "Unknown") :=
    ⟨promptHeader.data,
     (promptDescLabel ++ jsOr ctx.description "None" ++ promptTsLabel ++
       timestampStr ctx.timestamp ++ promptInstr ++ promptContext results).data,
     by simp [buildSystemPrompt, String.data_append, List.append_assoc]⟩
  have hD : containsStr (buildSystemPrompt ctx results) (jsOr ctx.description "None") :=
    ⟨(promptHeader ++ jsOr ctx.title "Unknown" ++ promptDescLabel).data,
     (promptTsLabel ++ timestampStr ctx.timestamp ++ promptInstr ++
       promptContext results).data,
     by simp [buildSystemPrompt, String.data_append, List.append_assoc]⟩
  have hTS : containsStr (buildSystemPrompt ctx results) (timestampStr ctx.timestamp) :=
    ⟨(promptHeader ++ jsOr ctx.title "Unknown" ++ promptDescLabel ++
       jsOr ctx.description "None" ++ promptTsLabel).data,
     (promptInstr ++ promptContext results).data,
     by simp [buildSystemPrompt, String.data_append, List.append_assoc]⟩
  have hPC : containsStr (buildSystemPrompt ctx results) (promptContext results) :=
    ⟨(promptHeader ++ jsOr ctx.title "Unknown" ++ promptDescLabel ++
       jsOr ctx.description "None" ++ promptTsLabel ++ timestampStr ctx.timestamp ++
       promptInstr).data,
     [],
     by simp [buildSystemPrompt, String.data_append, List.append_assoc]⟩
  refine ⟨?_, ?_, hTS, ?_, ?_, hPC⟩
  · intro ti hti hne
    have hj : jsOr ctx.title "Unknown" = ti := by
      rw [hti]
      simp [jsOr, jsFalsyOptStr, hne]
    rwa [hj] at hT
  · intro de hde hne
    have hj : jsOr ctx.description "None" = de := by
      rw [hde]
      simp [jsOr, jsFalsyOptStr, hne]
    rwa [hj] at hD
  · intro q hq hqz
    rw [hq]
    simp [timestampStr, hqz]
  · rintro (h | h) <;> rw [h] <;> simp [timestampStr]

theorem buildSystemPrompt_contains_witness :
    (["hi"] ≠ ([] : List String)) ∧
    containsStr (buildSystemPrompt ⟨some "T", some "D", none, none⟩ ["hi"])
      (timestampStr (⟨some "T", some "D", none, none⟩ : Ctx).timestamp) :=
  ⟨by simp,
   (buildSystemPrompt_contains ⟨some "T", some "D", none, none⟩ ["hi"] (by simp)).2.2.1⟩

def ctxZero : Ctx := ⟨some "T", some "D", some 0, none⟩

set_option maxRecDepth 40000 in
/-- C8 counterexample: with a present playback timestamp equal to 0 seconds
and a non-empty retrieval result, the built system instruction does not
contain the floored-timestamp rendering (`Math.floor(0) + "s"`, i.e.
`"0s"`); the source's truthiness test (`context.timestamp ? ... : "Start"`)
renders the present-but-falsy timestamp 0 as `"Start"` instead, so the
claim as stated — floored timestamp in the prompt whenever the timestamp is
present, "Start" only when absent — fails at this input. -/
theorem buildSystemPrompt_zero_ts :
    ctxZero.timestamp = some 0 ∧
    timestampStr ctxZero.timestamp = "Start" ∧
    ¬ containsStr (buildSystemPrompt ctxZero ["hello"]) (toString (⌊(0 : ℚ)⌋) ++ "s") := by
  refine ⟨rfl, rfl, ?_⟩
  intro hcon
  have hz : toString (⌊(0 : ℚ)⌋) ++ "s" = "0s" := by
    rw [show (⌊(0 : ℚ)⌋ : ℤ) = 0 from by norm_num]
    rfl
  rw [hz] at hcon
  rcases hcon with ⟨pre, post, heq⟩
  have hb : containsB ("0s".data) (buildSystemPrompt ctxZero ["hello"]).data = true :=
    (containsB_iff _ _).mpr ⟨pre, post, heq⟩
  have hf : containsB ("0s".data) (buildSystemPrompt ctxZero ["hello"]).data = false := by
    decide
  rw [hf] at hb
  exact Bool.false_ne_true hb

end YT
